import Mathlib

/-!
Shallow embedding of the symmetry-server connection/session dispatcher:
the `SymmetryServer` class (server.ts), the `WebServer` HTTP front door
(web-server.ts), and the repositories (session-repository.ts,
message-repository.ts, provider-repository.ts,
provider-session-repository.ts), together with the constants they use.

JavaScript `Map`s are embedded as association lists in insertion order
(`Map.set` replaces in place or appends, `Map.delete` removes the entry);
SQLite tables are embedded as lists of row records; timestamps are `Int`
milliseconds; `setInterval`/`setTimeout` handles are embedded as a
`Timer` record holding the handle id and the delay passed to the
scheduler, and `clearInterval`/`clearTimeout` is recorded in a
`cancelledTimers` list.  Frames written to a peer are collected in an
`outbox` list.  Sources of randomness (random provider row, fresh UUID
session token, random health-check request id) and fresh handle ids are
passed in as parameters.
-/

namespace SymmetryServer

/-- Lookup in an association list, the first entry with the given key
(JavaScript `Map.get` / SQL lookup by unique key). -/
def lookupA {α : Type} : List (String × α) → String → Option α
  | [], _ => none
  | (k2, v) :: rest, k => if k2 = k then some v else lookupA rest k

/-- `Map.set`: replace the entry in place if the key is present,
append it otherwise. -/
def insertA {α : Type} : List (String × α) → String → α → List (String × α)
  | [], k, v => [(k, v)]
  | (k2, v2) :: rest, k, v =>
    if k2 = k then (k, v) :: rest else (k2, v2) :: insertA rest k v

/-- `Map.delete` / SQL `DELETE ... WHERE key = ?`. -/
def eraseA {α : Type} : List (String × α) → String → List (String × α)
  | [], _ => []
  | (k2, v) :: rest, k =>
    if k2 = k then eraseA rest k else (k2, v) :: eraseA rest k

/-- Number of entries carrying a given key. -/
def keyCount {α : Type} : List (String × α) → String → Nat
  | [], _ => 0
  | (k2, _) :: rest, k =>
    (if k2 = k then 1 else 0) + keyCount rest k

/-- The keys of an association list are pairwise distinct. -/
def NodupKeys {α : Type} (m : List (String × α)) : Prop :=
  (m.map Prod.fst).Nodup

/-- A semver version `major.minor.patch`. -/
structure Version where
  major : Nat
  minor : Nat
  patch : Nat
deriving DecidableEq

/-- `semver.lt` restricted to core versions: lexicographic order. -/
def versionLt (a b : Version) : Bool :=
  if a.major < b.major then true
  else if b.major < a.major then false
  else if a.minor < b.minor then true
  else if b.minor < a.minor then false
  else decide (a.patch < b.patch)

/-- Modelled from the spec: `MIN_SUPPORTED_SYMMETRY_CORE_VERSION` is
imported by server.ts from constants.ts, but the revision of
constants.ts that defines it is not present under src/; the spec fixes
the configured minimum at `"1.2.0"`. -/
def MIN_SUPPORTED_SYMMETRY_CORE_VERSION : Version := ⟨1, 2, 0⟩

/-- `MAX_RANDOM_PEER_REQUEST_ATTEMPTS` from constants.ts. -/
def MAX_RANDOM_PEER_REQUEST_ATTEMPTS : Nat := 5

/-- `HEALTH_CHECK_TIMEOUT` (server.ts): ack window in milliseconds. -/
def HEALTH_CHECK_TIMEOUT : Nat := 15000

/-- `HEALTH_CHECK_INTERVAL` (server.ts): health-check cadence in
milliseconds. -/
def HEALTH_CHECK_INTERVAL : Nat := 900000

/-- `DURATION_UPDATE_INTERVAL` (server.ts): session-duration ticker
period in milliseconds. -/
def DURATION_UPDATE_INTERVAL : Nat := 300000

/-- `MAX_MESSAGES_PER_MINUTE` (server.ts): per-peer frame cap. -/
def MAX_MESSAGES_PER_MINUTE : Nat := 500

/-- `MAX_HTTP_REQUESTS` (web-server.ts): per-IP HTTP request cap. -/
def MAX_HTTP_REQUESTS : Nat := 100

/-- `TIME_WINDOW` (web-server.ts): rate-limit window in minutes. -/
def TIME_WINDOW : Int := 60

/-- `cryptoLib.randomBytes(16)` in `sendHealthCheck`: the request id is
16 random bytes. -/
def healthCheckRequestIdBytes : Nat := 16

/-- A row of the `peers` table. -/
structure PeerRow where
  key : String
  discoveryKey : String
  modelName : String
  provider : String
  name : String
  website : String
  isPublic : Bool
  dataCollectionEnabled : Bool
  serverKey : String
  maxConnections : Nat
  connections : Option Nat
  online : Bool
  healthy : Option Bool
deriving DecidableEq

/-- A row of the `provider_sessions` table. -/
structure ProviderSessionRow where
  id : Nat
  peerKey : String
  startTime : Int
  endTime : Option Int
  durationMinutes : Option Int
  totalRequests : Nat
deriving DecidableEq

/-- A row of the `sessions` table (a broker session). -/
structure BrokerSession where
  providerId : String
  createdAt : Int
  expiresAt : Int
deriving DecidableEq

/-- A row of the `ip_messages` table. -/
structure IpMessageRow where
  messageCount : Nat
  firstSeen : Int
  lastSeen : Int
deriving DecidableEq

/-- A `setInterval`/`setTimeout` handle together with the delay it was
scheduled with. -/
structure Timer where
  id : Nat
  delayMs : Nat
deriving DecidableEq

/-- The numeric fields of a `CompletionMetrics` snapshot. -/
structure CompletionMetricsState where
  averageTokensPerSecond : Int
  totalBytes : Int
  totalProcessTime : Int
  averageTokenLength : Int
  startTime : Int
  totalTokens : Int
deriving DecidableEq

/-- A row of the `metrics` table. -/
structure MetricsRow where
  providerSessionId : Nat
  state : CompletionMetricsState
deriving DecidableEq

/-- The payload of a `join` frame. -/
structure PeerUpsert where
  symmetryCoreVersion : Option Version
  discoveryKey : String
  dataCollectionEnabled : Bool
  modelName : String
  isPublic : Bool
  serverKey : String
  maxConnections : Nat
  name : String
  website : String
  apiProvider : String
deriving DecidableEq

/-- Remove the `peers` row with the given (unique) key. -/
def removePeer : List PeerRow → String → List PeerRow
  | [], _ => []
  | r :: rest, k =>
    if r.key = k then removePeer rest k else r :: removePeer rest k

/-- `PeerRepository.upsert`: `INSERT OR REPLACE INTO peers ... VALUES
(..., TRUE)`.  The conflicting row (unique `key`) is replaced; columns
absent from the insert list (`connections`, `healthy`) become NULL, and
`online` is set to TRUE by the statement. -/
def upsertPeer (peers : List PeerRow) (row : PeerRow) : List PeerRow :=
  removePeer peers row.key ++ [row]

/-- `PeerRepository.setPeerOffline`: `UPDATE peers SET online = false
WHERE key = ?`. -/
def setPeerOffline (peers : List PeerRow) (k : String) : List PeerRow :=
  peers.map fun r => if r.key = k then { r with online := false } else r

/-- `PeerRepository.updateConnections`: `UPDATE peers SET connections =
? WHERE key = ?`. -/
def updateConnections (peers : List PeerRow) (k : String) (n : Nat) :
    List PeerRow :=
  peers.map fun r => if r.key = k then { r with connections := some n } else r

/-- Modelled from the spec: `PeerRepository.updatePeerHealthStatus` is
called by server.ts but the revision of the peer repository defining it
is not present under src/; per the spec it records the peer's `healthy`
flag. -/
def updatePeerHealthStatus (peers : List PeerRow) (k : String) (h : Bool) :
    List PeerRow :=
  peers.map fun r => if r.key = k then { r with healthy := some h } else r

/-- `PeerRepository.getByDiscoveryKey`: `SELECT * FROM peers WHERE
discovery_key = ?`. -/
def findByDiscoveryKey : List PeerRow → String → Option PeerRow
  | [], _ => none
  | r :: rest, d =>
    if r.discoveryKey = d then some r else findByDiscoveryKey rest d

/-- `ProviderSessionRepository.startSession`: `INSERT INTO
provider_sessions (peer_key) VALUES (?)`; the fresh autoincrement id is
one more than the number of existing rows. -/
def startSessionRows (rows : List ProviderSessionRow) (k : String)
    (now : Int) : List ProviderSessionRow :=
  rows ++ [{ id := rows.length + 1, peerKey := k, startTime := now,
             endTime := none, durationMinutes := none, totalRequests := 0 }]

/-- `ProviderSessionRepository.endSession`: set `end_time` (and the
rounded duration) on every open row of the peer. -/
def endSessionRows (rows : List ProviderSessionRow) (k : String)
    (now : Int) : List ProviderSessionRow :=
  rows.map fun r =>
    if r.peerKey = k ∧ r.endTime = none then
      { r with endTime := some now,
               durationMinutes := some ((now - r.startTime) / 60000) }
    else r

/-- The ids of the open (`end_time IS NULL`) rows of a peer. -/
def openSessionIds : List ProviderSessionRow → String → List Nat
  | [], _ => []
  | r :: rest, k =>
    if r.peerKey = k ∧ r.endTime = none then r.id :: openSessionIds rest k
    else openSessionIds rest k

/-- Maximum of a list of naturals, `none` on the empty list. -/
def listMax : List Nat → Option Nat
  | [] => none
  | x :: xs =>
    match listMax xs with
    | none => some x
    | some m => some (Nat.max x m)

/-- `ProviderSessionRepository.getActiveSessionId`: `SELECT id ... WHERE
peer_key = ? AND end_time IS NULL ORDER BY id DESC LIMIT 1`. -/
def getActiveSessionId (rows : List ProviderSessionRow) (k : String) :
    Option Nat :=
  listMax (openSessionIds rows k)

/-- `ProviderSessionRepository.logRequest`: `UPDATE provider_sessions
SET total_requests = total_requests + 1 WHERE id = ?`. -/
def logRequest (rows : List ProviderSessionRow) (sid : Nat) :
    List ProviderSessionRow :=
  rows.map fun r =>
    if r.id = sid then { r with totalRequests := r.totalRequests + 1 } else r

/-- `sessionDuration` in session-repository.ts: 10 minutes in
milliseconds. -/
def sessionDurationMs : Int := 10 * 60 * 1000

/-- `SessionRepository.createSession`: insert a row binding the fresh
random token to the provider id, expiring `now + sessionDuration`. -/
def createSessionStore (st : List (String × BrokerSession)) (tok : String)
    (providerId : String) (now : Int) : List (String × BrokerSession) :=
  st ++ [(tok, { providerId := providerId, createdAt := now,
                 expiresAt := now + sessionDurationMs })]

/-- `SessionRepository.verifySession`: absent row gives `none`; a row
with `new Date() > expiresAt` is deleted and gives `none`; otherwise the
bound provider id is returned and the store is untouched. -/
def verifySessionStore (st : List (String × BrokerSession)) (tok : String)
    (now : Int) : Option String × List (String × BrokerSession) :=
  match lookupA st tok with
  | none => (none, st)
  | some s =>
    if s.expiresAt < now then (none, eraseA st tok)
    else (some s.providerId, st)

/-- `SessionRepository.extendSession`: absent row gives `false`;
otherwise `expires_at` is pushed to `now + sessionDuration` (no expiry
check) and the result is `true`. -/
def extendSessionStore (st : List (String × BrokerSession)) (tok : String)
    (now : Int) : Bool × List (String × BrokerSession) :=
  match lookupA st tok with
  | none => (false, st)
  | some s =>
    (true, insertA st tok { providerId := s.providerId,
                            createdAt := s.createdAt,
                            expiresAt := now + sessionDurationMs })

/-- `MessageRepository.incrementMessageCount`: upsert the per-IP row,
`message_count = message_count + 1`, `last_seen = now`. -/
def incrementMessageCount (db : List (String × IpMessageRow)) (ip : String)
    (now : Int) : List (String × IpMessageRow) :=
  match lookupA db ip with
  | none => db ++ [(ip, { messageCount := 1, firstSeen := now, lastSeen := now })]
  | some r => insertA db ip { messageCount := r.messageCount + 1,
                              firstSeen := r.firstSeen, lastSeen := now }

/-- `MessageRepository.getMessageCount`: the row, provided `last_seen ≥
now - timeWindowMinutes * 60 * 1000`. -/
def getMessageCount (db : List (String × IpMessageRow)) (ip : String)
    (timeWindowMinutes : Int) (now : Int) : Option IpMessageRow :=
  match lookupA db ip with
  | none => none
  | some r =>
    if now - timeWindowMinutes * 60 * 1000 ≤ r.lastSeen then some r else none

/-- A frame written by the hub to a peer (`createMessage` calls). -/
inductive ServerMsg where
  | joinAck (peerKey : String)
  | versionMismatch (minVersion : Version)
  | providerDetails (providerId : String) (sessionToken : String)
  | healthCheckReq (requestId : List Nat) (timestamp : Int)
  | healthCheckFailed
  | healthCheckAck
  | challengeResp
  | sessionValid (discoveryKey : String) (modelName : String)
      (name : String) (provider : String)
deriving DecidableEq

/-- A frame received from a peer, after `safeParseJson`: the recognised
`serverMessageKeys` discriminators, the `inferenceEnded` sentinel, and
`raw` for payloads that do not parse as a keyed frame. -/
inductive ClientFrame where
  | join (msg : PeerUpsert)
  | inference (tok : Option String)
  | challenge
  | conectionSize (connections : Nat)
  | sendMetrics (state : CompletionMetricsState)
  | requestProvider (modelName : String)
  | healthCheck
  | verifySession (tok : Option String)
  | inferenceEnded
  | raw
deriving DecidableEq

/-- The hub state touched by the dispatcher: the SQLite tables, the
in-memory maps of `SymmetryServer` and `WebServer`, the cancelled timer
handles, the HTTP replies that have been ended, and the outbox of frames
written to peers. -/
structure ServerState where
  peers : List PeerRow
  providerSessions : List ProviderSessionRow
  metrics : List MetricsRow
  brokerSessions : List (String × BrokerSession)
  ipMessages : List (String × IpMessageRow)
  connectedPeers : List (String × Nat)
  heartbeatIntervals : List (String × Timer)
  pongTimeouts : List (String × Timer)
  durationIntervals : List (String × Timer)
  healthCheckTimeouts : List (String × Timer)
  missedPongs : List (String × Nat)
  inferenceTokens : List (String × String)
  httpPeerReplies : List (String × Nat)
  msgRate : List (String × Nat)
  cancelledTimers : List Nat
  closedReplies : List Nat
  outbox : List (String × ServerMsg)
deriving DecidableEq

/-- The state with every table and map empty. -/
def emptyState : ServerState :=
  { peers := [], providerSessions := [], metrics := [], brokerSessions := [],
    ipMessages := [], connectedPeers := [], heartbeatIntervals := [],
    pongTimeouts := [], durationIntervals := [], healthCheckTimeouts := [],
    missedPongs := [], inferenceTokens := [], httpPeerReplies := [],
    msgRate := [], cancelledTimers := [], closedReplies := [], outbox := [] }

/-- `peer.write(createMessage(...))`. -/
def writeMsg (s : ServerState) (k : String) (m : ServerMsg) : ServerState :=
  { s with outbox := s.outbox ++ [(k, m)] }

/-- The body of `sendHealthCheck` in `startHealthCheck`: write a
`healthCheck` frame carrying the random request id and the timestamp,
and arm the 15-second ack timeout. -/
def sendHealthCheck (s : ServerState) (k : String) (requestId : List Nat)
    (now : Int) (timeoutId : Nat) : ServerState :=
  let s1 := writeMsg s k (.healthCheckReq requestId now)
  { s1 with healthCheckTimeouts :=
      insertA s1.healthCheckTimeouts k ⟨timeoutId, HEALTH_CHECK_TIMEOUT⟩ }

/-- The 15-minute health ticker fires: its callback is `sendHealthCheck`. -/
def onHealthIntervalTick (s : ServerState) (k : String)
    (requestId : List Nat) (now : Int) (timeoutId : Nat) : ServerState :=
  sendHealthCheck s k requestId now timeoutId

/-- `startHealthCheck`: send one health check immediately, then register
the `HEALTH_CHECK_INTERVAL` ticker in `_heartbeatIntervals`. -/
def startHealthCheck (s : ServerState) (k : String) (requestId : List Nat)
    (now : Int) (timeoutId : Nat) (intervalId : Nat) : ServerState :=
  let s1 := sendHealthCheck s k requestId now timeoutId
  { s1 with heartbeatIntervals :=
      insertA s1.heartbeatIntervals k ⟨intervalId, HEALTH_CHECK_INTERVAL⟩ }

/-- The health-check ack timeout fires: mark the peer unhealthy and
write a `healthCheckFailed` frame.  Nothing else happens. -/
def onHealthCheckTimeout (s : ServerState) (k : String) : ServerState :=
  let s1 := { s with peers := updatePeerHealthStatus s.peers k false }
  writeMsg s1 k .healthCheckFailed

/-- `handleHealthCheck` (the peer's ack): if a timeout is armed, clear
it, mark the peer healthy, and reply `healthCheckAck`. -/
def handleHealthCheck (s : ServerState) (k : String) : ServerState :=
  match lookupA s.healthCheckTimeouts k with
  | none => s
  | some t =>
    let s1 := { s with
      cancelledTimers := s.cancelledTimers ++ [t.id],
      healthCheckTimeouts := eraseA s.healthCheckTimeouts k,
      peers := updatePeerHealthStatus s.peers k true }
    writeMsg s1 k .healthCheckAck

/-- `listeners(peer)`: on connection acceptance a provider session row
is opened and the session-duration ticker is registered, before any
frame from the peer is processed. -/
def acceptConnection (s : ServerState) (k : String) (now : Int)
    (durTimerId : Nat) : ServerState :=
  let s1 := { s with providerSessions := startSessionRows s.providerSessions k now }
  { s1 with durationIntervals :=
      insertA s1.durationIntervals k ⟨durTimerId, DURATION_UPDATE_INTERVAL⟩ }

/-- `clearInterval`/`clearTimeout` guarded by presence, as in
`handlePeerDisconnect`. -/
def cancelIfArmed (cancelled : List Nat) (entry : Option Timer) : List Nat :=
  match entry with
  | none => cancelled
  | some t => cancelled ++ [t.id]

/-- `handlePeerDisconnect`: cancel and deregister every per-peer timer,
drop the peer from the connected map, scrub every inference-token
mapping pointing at the peer, mark the peer offline, and end its open
provider session. -/
def handlePeerDisconnect (s : ServerState) (k : String) (now : Int) :
    ServerState :=
  let c1 := cancelIfArmed s.cancelledTimers (lookupA s.heartbeatIntervals k)
  let c2 := cancelIfArmed c1 (lookupA s.pongTimeouts k)
  let c3 := cancelIfArmed c2 (lookupA s.durationIntervals k)
  let c4 := cancelIfArmed c3 (lookupA s.healthCheckTimeouts k)
  { s with
    cancelledTimers := c4,
    heartbeatIntervals := eraseA s.heartbeatIntervals k,
    pongTimeouts := eraseA s.pongTimeouts k,
    durationIntervals := eraseA s.durationIntervals k,
    missedPongs := eraseA s.missedPongs k,
    healthCheckTimeouts := eraseA s.healthCheckTimeouts k,
    connectedPeers := eraseA s.connectedPeers k,
    inferenceTokens := s.inferenceTokens.filter fun p => !(p.2 == k),
    peers := setPeerOffline s.peers k,
    providerSessions := endSessionRows s.providerSessions k now }

/-- `handleInferenceRequest`: record the inference token against the
peer key, then log the request on the active provider session. -/
def handleInferenceRequest (s : ServerState) (k : String)
    (tok : Option String) : ServerState :=
  let s1 :=
    match tok with
    | some t => { s with inferenceTokens := insertA s.inferenceTokens t k }
    | none => s
  match getActiveSessionId s1.providerSessions k with
  | none => s1
  | some sid => { s1 with providerSessions := logRequest s1.providerSessions sid }

/-- `handleProviderConnections`: persist the self-reported fan-out. -/
def handleProviderConnections (s : ServerState) (k : String) (n : Nat) :
    ServerState :=
  { s with peers := updateConnections s.peers k n }

/-- `handleMetrics`: append a metrics row to the active session. -/
def handleMetrics (s : ServerState) (k : String)
    (d : CompletionMetricsState) : ServerState :=
  match getActiveSessionId s.providerSessions k with
  | none => s
  | some sid => { s with metrics := s.metrics ++ [⟨sid, d⟩] }

/-- `handleChallenge`: reply with a `challenge` frame carrying the
signature over the challenge bytes (the signature itself is external). -/
def handleChallenge (s : ServerState) (k : String) : ServerState :=
  writeMsg s k .challengeResp

/-- `handleJoin`: missing or too-old `symmetryCoreVersion` gets a
`versionMismatch` reply and nothing else; otherwise upsert the peer row,
reply `joinAck`, add to the connected map and start the health check. -/
def handleJoin (s : ServerState) (k : String) (msg : PeerUpsert)
    (requestId : List Nat) (now : Int) (connId : Nat) (timeoutId : Nat)
    (intervalId : Nat) : ServerState :=
  match msg.symmetryCoreVersion with
  | none => writeMsg s k (.versionMismatch MIN_SUPPORTED_SYMMETRY_CORE_VERSION)
  | some v =>
    if versionLt v MIN_SUPPORTED_SYMMETRY_CORE_VERSION then
      writeMsg s k (.versionMismatch MIN_SUPPORTED_SYMMETRY_CORE_VERSION)
    else
      let row : PeerRow :=
        { key := k, discoveryKey := msg.discoveryKey,
          modelName := msg.modelName, provider := msg.apiProvider,
          name := msg.name, website := msg.website,
          isPublic := msg.isPublic,
          dataCollectionEnabled := msg.dataCollectionEnabled,
          serverKey := msg.serverKey, maxConnections := msg.maxConnections,
          connections := none, online := true, healthy := none }
      let s1 := { s with peers := upsertPeer s.peers row }
      let s2 := writeMsg s1 k (.joinAck k)
      let s3 := { s2 with connectedPeers := insertA s2.connectedPeers k connId }
      startHealthCheck s3 k requestId now timeoutId intervalId

/-- `handleRequestProvider`: bounded retry of the random provider
lookup (`randomPeer` gives the result of `getRandom` on each attempt);
fail fast on a saturated provider; otherwise create a broker session for
the provider's discovery key and reply `providerDetails`. -/
def handleRequestProviderAux (s : ServerState) (k : String)
    (randomPeer : Nat → Option PeerRow) (token : String) (now : Int)
    (attempts : Nat) : ServerState :=
  if MAX_RANDOM_PEER_REQUEST_ATTEMPTS < attempts then s
  else
    match randomPeer attempts with
    | none => handleRequestProviderAux s k randomPeer token now (attempts + 1)
    | some providerPeer =>
      if providerPeer.maxConnections ≤ providerPeer.connections.getD 0 then s
      else
        let s1 := { s with brokerSessions :=
          createSessionStore s.brokerSessions token providerPeer.discoveryKey now }
        writeMsg s1 k (.providerDetails providerPeer.key token)
termination_by MAX_RANDOM_PEER_REQUEST_ATTEMPTS + 1 - attempts
decreasing_by simp_wf; omega

/-- `handleRequestProvider` starts with `attempts = 0`. -/
def handleRequestProvider (s : ServerState) (k : String)
    (randomPeer : Nat → Option PeerRow) (token : String) (now : Int) :
    ServerState :=
  handleRequestProviderAux s k randomPeer token now 0

/-- `handleSessionValidation`: verify the broker token (falsy tokens are
ignored), look the provider up by discovery key, reply `sessionValid`,
and extend the session. -/
def handleSessionValidation (s : ServerState) (k : String)
    (tok : Option String) (now : Int) : ServerState :=
  match tok with
  | none => s
  | some t =>
    if t = "" then s
    else
      let vres := verifySessionStore s.brokerSessions t now
      let s1 := { s with brokerSessions := vres.2 }
      match vres.1 with
      | none => s1
      | some d =>
        match findByDiscoveryKey s1.peers d with
        | none => s1
        | some p =>
          let s2 := writeMsg s1 k
            (.sessionValid p.discoveryKey p.modelName p.name p.provider)
          { s2 with brokerSessions := (extendSessionStore s2.brokerSessions t now).2 }

/-- The `peer.on("data", ...)` handler: per-peer rate limit, raw
write-through to a pending HTTP responder, the `inferenceEnded`
sentinel, then the `switch` on the frame key.  Dispatch does not consult
any join status. -/
def onData (s : ServerState) (k : String) (f : ClientFrame) (now : Int)
    (freshToken : String) (requestId : List Nat) (connId : Nat)
    (timeoutId : Nat) (intervalId : Nat)
    (randomPeer : Nat → Option PeerRow) : ServerState :=
  let currentCount := (lookupA s.msgRate k).getD 0
  if MAX_MESSAGES_PER_MINUTE ≤ currentCount then s
  else
    let s0 := { s with msgRate := insertA s.msgRate k (currentCount + 1) }
    match f with
    | .raw => s0
    | .inferenceEnded =>
      match lookupA s0.httpPeerReplies k with
      | some rid => { s0 with closedReplies := s0.closedReplies ++ [rid] }
      | none => s0
    | .join msg => handleJoin s0 k msg requestId now connId timeoutId intervalId
    | .inference tok => handleInferenceRequest s0 k tok
    | .challenge => handleChallenge s0 k
    | .conectionSize n => handleProviderConnections s0 k n
    | .sendMetrics d => handleMetrics s0 k d
    | .requestProvider _ => handleRequestProvider s0 k randomPeer freshToken now
    | .healthCheck => handleHealthCheck s0 k
    | .verifySession tok => handleSessionValidation s0 k tok now

/-- The outcome of `POST /v1/chat/completions`. -/
inductive HttpStatus where
  | rateLimited
  | noPeers
  | silentClose
  | streaming (peerKey : String)
deriving DecidableEq

/-- The body of the POST handler after the rate-limit check passed:
increment the counter, pick a provider, look up its live connection, and
register the pending responder for the provider's peer key. -/
def chatCompletionsDispatch (ipDb : List (String × IpMessageRow))
    (replies : List (String × Nat)) (connected : List (String × Nat))
    (ip : String) (now : Int) (dbPeer : Option PeerRow) (replyId : Nat) :
    HttpStatus × List (String × IpMessageRow) × List (String × Nat) :=
  let ipDb1 := incrementMessageCount ipDb ip now
  match dbPeer with
  | none => (.noPeers, ipDb1, replies)
  | some p =>
    match lookupA connected p.key with
    | none => (.silentClose, ipDb1, replies)
    | some _ => (.streaming p.key, ipDb1, insertA replies p.key replyId)

/-- The `POST /v1/chat/completions` handler of web-server.ts: consult
the per-IP counter over the 60-minute window, answer 429 at the cap, and
otherwise dispatch (`dbPeer` is the result of the random provider
lookup, `replyId` the fresh responder handle). -/
def handleChatCompletions (ipDb : List (String × IpMessageRow))
    (replies : List (String × Nat)) (connected : List (String × Nat))
    (ip : String) (now : Int) (dbPeer : Option PeerRow) (replyId : Nat) :
    HttpStatus × List (String × IpMessageRow) × List (String × Nat) :=
  match getMessageCount ipDb ip TIME_WINDOW now with
  | some row =>
    if MAX_HTTP_REQUESTS ≤ row.messageCount then (.rateLimited, ipDb, replies)
    else chatCompletionsDispatch ipDb replies connected ip now dbPeer replyId
  | none => chatCompletionsDispatch ipDb replies connected ip now dbPeer replyId

/-- The `request.raw.on("close")` hook: deregister the pending
responder for the captured peer key. -/
def onHttpRequestClose (replies : List (String × Nat)) (k : String) :
    List (String × Nat) :=
  eraseA replies k

/-- Sequential HTTP requests from one client IP at the given times, with
no provider available (the rate-limit behaviour does not depend on the
provider lookup); returns the statuses and the final `ip_messages`
table. -/
def runHttpRequests (ip : String) :
    List Int → List (String × IpMessageRow) →
    List HttpStatus × List (String × IpMessageRow)
  | [], ipDb => ([], ipDb)
  | t :: ts, ipDb =>
    let r := handleChatCompletions ipDb [] [] ip t none 0
    let rest := runHttpRequests ip ts r.2.1
    (r.1 :: rest.1, rest.2)

/-- Replay a list of `verifySession` calls for one token, threading the
session store. -/
def runVerifies (tok : String) :
    List Int → List (String × BrokerSession) → List (String × BrokerSession)
  | [], st => st
  | t :: ts, st => runVerifies tok ts (verifySessionStore st tok t).2

/-- A sample online provider row with key `"pk"` and spare capacity. -/
def pkRow : PeerRow :=
  { key := "pk", discoveryKey := "dk", modelName := "llama3",
    provider := "ollama", name := "n", website := "w", isPublic := true,
    dataCollectionEnabled := false, serverKey := "", maxConnections := 4,
    connections := none, online := true, healthy := none }

/-- The per-peer rate-limit bookkeeping the data handler performs
before dispatching a frame under the cap: record one more message for
the peer in the LRU counter. -/
def rateTick (s : ServerState) (k : String) : ServerState :=
  { s with msgRate := insertA s.msgRate k ((lookupA s.msgRate k).getD 0 + 1) }

/-- A sample provider row at its connection cap. -/
def satPkRow : PeerRow :=
  { pkRow with key := "sat", discoveryKey := "dks",
               connections := some 4, maxConnections := 4 }

/-- A sample `join` payload advertising version 0.9.0. -/
def joinBadMsg : PeerUpsert :=
  { symmetryCoreVersion := some ⟨0, 9, 0⟩, discoveryKey := "dk",
    dataCollectionEnabled := false, modelName := "llama3", isPublic := true,
    serverKey := "", maxConnections := 4, name := "n", website := "w",
    apiProvider := "ollama" }

/-- A freshly accepted connection for peer `"aa"` that has not sent any
frame yet (in particular, no `join`). -/
def sAccepted : ServerState := acceptConnection emptyState "aa" 0 7

/-- A sample state with peer `"pk"` joined: row online, open provider
session, all per-peer timers registered, two inference tokens (one for
`"pk"`, one for another peer), and a connected-map entry. -/
def sJoined : ServerState :=
  { emptyState with
    peers := [pkRow],
    providerSessions :=
      [{ id := 1, peerKey := "pk", startTime := 0, endTime := none,
         durationMinutes := none, totalRequests := 0 }],
    connectedPeers := [("pk", 9)],
    heartbeatIntervals := [("pk", ⟨1, HEALTH_CHECK_INTERVAL⟩)],
    pongTimeouts := [("pk", ⟨2, 5000⟩)],
    durationIntervals := [("pk", ⟨3, DURATION_UPDATE_INTERVAL⟩)],
    healthCheckTimeouts := [("pk", ⟨4, HEALTH_CHECK_TIMEOUT⟩)],
    missedPongs := [("pk", 0)],
    inferenceTokens := [("t1", "pk"), ("t2", "qq")] }

theorem lookupA_insertA_self {α : Type} (m : List (String × α)) (k : String)
    (v : α) : lookupA (insertA m k v) k = some v := by
  induction m with
  | nil => simp [insertA, lookupA]
  | cons hd tl ih =>
    by_cases h : hd.1 = k
    · simp [insertA, lookupA, h]
    · simpa [insertA, lookupA, h] using ih

theorem lookupA_insertA_ne {α : Type} (m : List (String × α))
    (k k2 : String) (v : α) (h : k ≠ k2) :
    lookupA (insertA m k v) k2 = lookupA m k2 := by
  induction m with
  | nil => simp [insertA, lookupA, h]
  | cons hd tl ih =>
    by_cases h1 : hd.1 = k
    · simp [insertA, lookupA, h1, h]
    · simp [insertA, lookupA, h1]
      by_cases h2 : hd.1 = k2 <;> simp [h2, ih]

theorem lookupA_eraseA_self {α : Type} (m : List (String × α)) (k : String) :
    lookupA (eraseA m k) k = none := by
  induction m with
  | nil => simp [eraseA, lookupA]
  | cons hd tl ih =>
    by_cases h : hd.1 = k
    · simpa [eraseA, h] using ih
    · simp [eraseA, lookupA, h, ih]

theorem lookupA_eraseA_ne {α : Type} (m : List (String × α))
    (k k2 : String) (h : k ≠ k2) :
    lookupA (eraseA m k) k2 = lookupA m k2 := by
  induction m with
  | nil => simp [eraseA]
  | cons hd tl ih =>
    by_cases h1 : hd.1 = k
    · simp [eraseA, lookupA, h1, h, ih]
    · simp [eraseA, lookupA, h1]
      by_cases h2 : hd.1 = k2 <;> simp [h2, ih]

theorem lookupA_append_of_some {α : Type} (m l : List (String × α))
    (k : String) (w : α) (h : lookupA m k = some w) :
    lookupA (m ++ l) k = some w := by
  induction m with
  | nil => simp [lookupA] at h
  | cons hd tl ih =>
    by_cases h1 : hd.1 = k
    · simp [lookupA, h1] at h ⊢; exact h
    · simp [lookupA, h1] at h ⊢; exact ih h

theorem lookupA_append_single_of_none {α : Type} (m : List (String × α))
    (k k2 : String) (v : α) (h : lookupA m k = none) :
    lookupA (m ++ [(k2, v)]) k = if k2 = k then some v else none := by
  induction m with
  | nil => simp [lookupA]
  | cons hd tl ih =>
    by_cases h1 : hd.1 = k
    · simp [lookupA, h1] at h
    · simp [lookupA, h1] at h ⊢; exact ih h

theorem mem_keys_insertA {α : Type} (m : List (String × α)) (k x : String)
    (v : α) :
    x ∈ (insertA m k v).map Prod.fst ↔ x ∈ m.map Prod.fst ∨ x = k := by
  induction m with
  | nil => simp [insertA]
  | cons hd tl ih =>
    by_cases h : hd.1 = k
    · subst h; simp [insertA]; tauto
    · simp [insertA, h, ih]; tauto

theorem nodupKeys_insertA {α : Type} (m : List (String × α)) (k : String)
    (v : α) (h : NodupKeys m) : NodupKeys (insertA m k v) := by
  induction m with
  | nil => simp [insertA, NodupKeys]
  | cons hd tl ih =>
    obtain ⟨k2, v2⟩ := hd
    unfold NodupKeys at h ⊢
    simp only [List.map_cons, List.nodup_cons] at h
    by_cases h1 : k2 = k
    · subst h1
      simpa [insertA, List.nodup_cons] using h
    · have ihh := ih h.2
      simp only [insertA, if_neg h1, List.map_cons, List.nodup_cons]
      refine ⟨?_, ihh⟩
      intro hmem
      rcases (mem_keys_insertA tl k k2 v).1 hmem with hin | heq
      · exact h.1 hin
      · exact h1 heq

theorem eraseA_sublist {α : Type} (m : List (String × α)) (k : String) :
    (eraseA m k).Sublist m := by
  induction m with
  | nil => simp [eraseA]
  | cons hd tl ih =>
    by_cases h : hd.1 = k
    · simp only [eraseA, if_pos h]
      exact ih.cons hd
    · simp only [eraseA, if_neg h]
      exact ih.cons₂ hd

theorem nodupKeys_eraseA {α : Type} (m : List (String × α)) (k : String)
    (h : NodupKeys m) : NodupKeys (eraseA m k) :=
  ((eraseA_sublist m k).map Prod.fst).nodup h

theorem keyCount_eq_zero_of_not_mem {α : Type} (m : List (String × α))
    (k : String) (h : k ∉ m.map Prod.fst) : keyCount m k = 0 := by
  induction m with
  | nil => simp [keyCount]
  | cons hd tl ih =>
    simp only [List.map_cons, List.mem_cons, not_or] at h
    have : ¬ hd.1 = k := fun hh => h.1 hh.symm
    simp [keyCount, this, ih h.2]

theorem keyCount_le_one_of_nodup {α : Type} (m : List (String × α))
    (k : String) (h : NodupKeys m) : keyCount m k ≤ 1 := by
  induction m with
  | nil => simp [keyCount]
  | cons hd tl ih =>
    unfold NodupKeys at h
    simp only [List.map_cons, List.nodup_cons] at h
    by_cases h1 : hd.1 = k
    · subst h1
      simp [keyCount, keyCount_eq_zero_of_not_mem tl hd.1 h.1]
    · simpa [keyCount, h1] using ih h.2

theorem mem_setPeerOffline (ps : List PeerRow) (k : String) (r : PeerRow)
    (hr : r ∈ setPeerOffline ps k) (hk : r.key = k) : r.online = false := by
  unfold setPeerOffline at hr
  rcases List.mem_map.1 hr with ⟨r0, _, heq⟩
  by_cases h : r0.key = k
  · rw [if_pos h] at heq; rw [← heq]
  · rw [if_neg h] at heq; subst heq; exact absurd hk h

theorem mem_updatePeerHealthStatus (ps : List PeerRow) (k : String)
    (b : Bool) (r : PeerRow) (hr : r ∈ updatePeerHealthStatus ps k b)
    (hk : r.key = k) : r.healthy = some b := by
  unfold updatePeerHealthStatus at hr
  rcases List.mem_map.1 hr with ⟨r0, _, heq⟩
  by_cases h : r0.key = k
  · rw [if_pos h] at heq; rw [← heq]
  · rw [if_neg h] at heq; subst heq; exact absurd hk h

theorem updatePeerHealthStatus_key_online (ps : List PeerRow) (k : String)
    (b : Bool) :
    (updatePeerHealthStatus ps k b).map (fun r => (r.key, r.online)) =
      ps.map (fun r => (r.key, r.online)) := by
  induction ps with
  | nil => simp [updatePeerHealthStatus]
  | cons hd tl ih =>
    unfold updatePeerHealthStatus at ih ⊢
    by_cases h : hd.key = k <;> simp [h, ih]

theorem mem_endSessionRows (rows : List ProviderSessionRow) (k : String)
    (now : Int) (r : ProviderSessionRow) (hr : r ∈ endSessionRows rows k now)
    (hk : r.peerKey = k) : r.endTime ≠ none := by
  unfold endSessionRows at hr
  rcases List.mem_map.1 hr with ⟨r0, _, heq⟩
  by_cases h : r0.peerKey = k ∧ r0.endTime = none
  · rw [if_pos h] at heq; rw [← heq]; simp
  · rw [if_neg h] at heq
    subst heq
    intro hnone
    exact h ⟨hk, hnone⟩

theorem mem_filter_token (l : List (String × String)) (k : String)
    (p : String × String) (hp : p ∈ l.filter fun q => !(q.2 == k)) :
    p.2 ≠ k := by
  have := (List.mem_filter.1 hp).2
  simpa using this

theorem mem_cancelIfArmed_of_mem (c : List Nat) (e : Option Timer) (x : Nat)
    (h : x ∈ c) : x ∈ cancelIfArmed c e := by
  cases e <;> simp [cancelIfArmed, h]

theorem mem_cancelIfArmed_self (c : List Nat) (t : Timer) :
    t.id ∈ cancelIfArmed c (some t) := by
  simp [cancelIfArmed]

/-- C1: when the disconnect transition (`handlePeerDisconnect`, run on
transport close or fatal transport error) completes, cleanup is total:
the session-duration ticker, health-check interval and health-check
timeout are cancelled and deregistered, the peer is removed from the
connected-peer map, every inference-token mapping whose value equals the
peer key is removed, the peer's `peers` row has `online = false`, and
the peer's open provider-session row has `end_time` set. -/
theorem claim_C1_disconnect_cleanup (s : ServerState) (k : String)
    (now : Int) :
    lookupA (handlePeerDisconnect s k now).heartbeatIntervals k = none ∧
    lookupA (handlePeerDisconnect s k now).pongTimeouts k = none ∧
    lookupA (handlePeerDisconnect s k now).durationIntervals k = none ∧
    lookupA (handlePeerDisconnect s k now).healthCheckTimeouts k = none ∧
    (∀ t, lookupA s.durationIntervals k = some t →
      t.id ∈ (handlePeerDisconnect s k now).cancelledTimers) ∧
    (∀ t, lookupA s.heartbeatIntervals k = some t →
      t.id ∈ (handlePeerDisconnect s k now).cancelledTimers) ∧
    (∀ t, lookupA s.healthCheckTimeouts k = some t →
      t.id ∈ (handlePeerDisconnect s k now).cancelledTimers) ∧
    lookupA (handlePeerDisconnect s k now).connectedPeers k = none ∧
    (∀ p ∈ (handlePeerDisconnect s k now).inferenceTokens, p.2 ≠ k) ∧
    (∀ r ∈ (handlePeerDisconnect s k now).peers,
      r.key = k → r.online = false) ∧
    (∀ r ∈ (handlePeerDisconnect s k now).providerSessions,
      r.peerKey = k → r.endTime ≠ none) := by
  refine ⟨?_, ?_, ?_, ?_, ?_, ?_, ?_, ?_, ?_, ?_, ?_⟩
  · simp [handlePeerDisconnect, lookupA_eraseA_self]
  · simp [handlePeerDisconnect, lookupA_eraseA_self]
  · simp [handlePeerDisconnect, lookupA_eraseA_self]
  · simp [handlePeerDisconnect, lookupA_eraseA_self]
  · intro t ht
    simp only [handlePeerDisconnect]
    apply mem_cancelIfArmed_of_mem
    rw [ht]
    exact mem_cancelIfArmed_self _ t
  · intro t ht
    simp only [handlePeerDisconnect]
    apply mem_cancelIfArmed_of_mem
    apply mem_cancelIfArmed_of_mem
    apply mem_cancelIfArmed_of_mem
    rw [ht]
    exact mem_cancelIfArmed_self _ t
  · intro t ht
    simp only [handlePeerDisconnect]
    rw [ht]
    exact mem_cancelIfArmed_self _ t
  · simp [handlePeerDisconnect, lookupA_eraseA_self]
  · intro p hp
    simp only [handlePeerDisconnect] at hp
    exact mem_filter_token _ _ _ hp
  · intro r hr hk
    simp only [handlePeerDisconnect] at hr
    exact mem_setPeerOffline _ _ _ hr hk
  · intro r hr hk
    simp only [handlePeerDisconnect] at hr
    exact mem_endSessionRows _ _ _ _ hr hk

/-- Witness for C1 at the sample joined state: after disconnecting
`"pk"`, the connected-map entry is gone, no inference token points at
`"pk"`, and the duration ticker's handle was cancelled. -/
theorem claim_C1_witness :
    lookupA (handlePeerDisconnect sJoined "pk" 60000).connectedPeers "pk" =
      none ∧
    (∀ p ∈ (handlePeerDisconnect sJoined "pk" 60000).inferenceTokens,
      p.2 ≠ "pk") ∧
    (3 : Nat) ∈ (handlePeerDisconnect sJoined "pk" 60000).cancelledTimers := by
  have h := claim_C1_disconnect_cleanup sJoined "pk" 60000
  exact ⟨h.2.2.2.2.2.2.2.1, h.2.2.2.2.2.2.2.2.1,
    h.2.2.2.2.1 ⟨3, DURATION_UPDATE_INTERVAL⟩ (by decide)⟩

/-- C3: the health protocol of the dispatcher.  The cadence is 15
minutes (`HEALTH_CHECK_INTERVAL`), the request id is 16 random bytes
(128 bits), each send arms a 15-second ack timeout, the interval's
callback is exactly `sendHealthCheck`, and when the ack timeout fires
the peer is marked `healthy = false` and a `healthCheckFailed` frame is
written — nothing else changes: the peer stays in the connected map,
its provider session stays open, its timers stay registered, and its
`online` flag is untouched, so no disconnect transition happens. -/
theorem claim_C3_health_protocol :
    HEALTH_CHECK_INTERVAL = 15 * 60 * 1000 ∧
    HEALTH_CHECK_TIMEOUT = 15 * 1000 ∧
    healthCheckRequestIdBytes = 16 ∧
    8 * healthCheckRequestIdBytes = 128 ∧
    (∀ s k requestId now timeoutId intervalId,
      (k, ServerMsg.healthCheckReq requestId now) ∈
        (startHealthCheck s k requestId now timeoutId intervalId).outbox ∧
      lookupA (startHealthCheck s k requestId now timeoutId
          intervalId).healthCheckTimeouts k =
        some ⟨timeoutId, HEALTH_CHECK_TIMEOUT⟩ ∧
      lookupA (startHealthCheck s k requestId now timeoutId
          intervalId).heartbeatIntervals k =
        some ⟨intervalId, HEALTH_CHECK_INTERVAL⟩) ∧
    (∀ s k requestId now timeoutId,
      onHealthIntervalTick s k requestId now timeoutId =
        sendHealthCheck s k requestId now timeoutId ∧
      (k, ServerMsg.healthCheckReq requestId now) ∈
        (onHealthIntervalTick s k requestId now timeoutId).outbox ∧
      lookupA (onHealthIntervalTick s k requestId now
          timeoutId).healthCheckTimeouts k =
        some ⟨timeoutId, HEALTH_CHECK_TIMEOUT⟩) ∧
    (∀ s k,
      (∀ r ∈ (onHealthCheckTimeout s k).peers,
        r.key = k → r.healthy = some false) ∧
      (onHealthCheckTimeout s k).outbox =
        s.outbox ++ [(k, .healthCheckFailed)] ∧
      (onHealthCheckTimeout s k).connectedPeers = s.connectedPeers ∧
      (onHealthCheckTimeout s k).providerSessions = s.providerSessions ∧
      (onHealthCheckTimeout s k).heartbeatIntervals = s.heartbeatIntervals ∧
      (onHealthCheckTimeout s k).durationIntervals = s.durationIntervals ∧
      (onHealthCheckTimeout s k).healthCheckTimeouts = s.healthCheckTimeouts ∧
      (onHealthCheckTimeout s k).inferenceTokens = s.inferenceTokens ∧
      (onHealthCheckTimeout s k).peers.map (fun r => (r.key, r.online)) =
        s.peers.map (fun r => (r.key, r.online))) := by
  refine ⟨rfl, rfl, rfl, rfl, ?_, ?_, ?_⟩
  · intro s k requestId now timeoutId intervalId
    refine ⟨?_, ?_, ?_⟩
    · simp [startHealthCheck, sendHealthCheck, writeMsg]
    · simp [startHealthCheck, sendHealthCheck, writeMsg, lookupA_insertA_self]
    · simp [startHealthCheck, sendHealthCheck, writeMsg, lookupA_insertA_self]
  · intro s k requestId now timeoutId
    refine ⟨rfl, ?_, ?_⟩
    · simp [onHealthIntervalTick, sendHealthCheck, writeMsg]
    · simp [onHealthIntervalTick, sendHealthCheck, writeMsg,
        lookupA_insertA_self]
  · intro s k
    refine ⟨?_, rfl, rfl, rfl, rfl, rfl, rfl, rfl, ?_⟩
    · intro r hr hk
      simp only [onHealthCheckTimeout, writeMsg] at hr
      exact mem_updatePeerHealthStatus _ _ _ _ hr hk
    · simpa [onHealthCheckTimeout, writeMsg] using
        updatePeerHealthStatus_key_online s.peers k false

/-- Witness for C3 at concrete inputs: after a timeout fires for
`"pk"` in the sample joined state, some peers row is `healthy = false`
while the connected map is untouched, and `startHealthCheck` arms the
15-minute interval. -/
theorem claim_C3_witness :
    (∃ r ∈ (onHealthCheckTimeout sJoined "pk").peers,
      r.healthy = some false) ∧
    (onHealthCheckTimeout sJoined "pk").connectedPeers = [("pk", 9)] ∧
    lookupA (startHealthCheck emptyState "pk"
        [0, 1, 2, 3, 4, 5, 6, 7, 8, 9, 10, 11, 12, 13, 14, 15] 0 4
        1).heartbeatIntervals "pk" = some ⟨1, 900000⟩ := by
  have h6 := claim_C3_health_protocol.2.2.2.2.2.2 sJoined "pk"
  have h4 := claim_C3_health_protocol.2.2.2.2.1 emptyState "pk"
    [0, 1, 2, 3, 4, 5, 6, 7, 8, 9, 10, 11, 12, 13, 14, 15] 0 4 1
  refine ⟨⟨{ pkRow with healthy := some false }, by decide,
    h6.1 _ (by decide) (by decide)⟩, ?_, h4.2.2⟩
  rw [h6.2.2.1]
  decide

/-- Counterexample to C2 as stated: peer `"aa"` has an accepted
connection but never sent `join` (it is not in the connected-peer map),
yet an `inference` frame from it is not dropped — the dispatcher records
the inference-token mapping (and the hub state changes), because the
`switch` on the frame key never consults any join status. -/
theorem claim_C2_counterexample :
    lookupA sAccepted.connectedPeers "aa" = none ∧
    (onData sAccepted "aa" (.inference (some "tok")) 0 "" [] 0 0 0
      (fun _ => none)).inferenceTokens = [("tok", "aa")] ∧
    sAccepted.inferenceTokens = [] ∧
    onData sAccepted "aa" (.inference (some "tok")) 0 "" [] 0 0 0
      (fun _ => none) ≠ sAccepted := by decide

/-- C2 amended: the dispatcher processes a connection's frames
sequentially but does not gate them on a prior `join`: every recognised
frame from a peer that has not joined (`join`, `inference`, `challenge`,
`conectionSize`, `sendMetrics`, `requestProvider`, the `healthCheck`
ack, `verifySession`), when under the per-peer rate limit, is dispatched
to its handler exactly as it would be after a join (only the per-peer
message counter is updated first), and its effects happen — e.g. an
`inference` frame records its inference-token mapping; the dispatcher
neither drops the frame nor fails the connection. -/
theorem claim_C2_amended_join_blind_dispatch (s : ServerState)
    (k : String) (now : Int) (ft : String) (rid : List Nat)
    (cid tid iid : Nat) (rp : Nat → Option PeerRow)
    (_hnj : lookupA s.connectedPeers k = none)
    (hrate : (lookupA s.msgRate k).getD 0 < MAX_MESSAGES_PER_MINUTE) :
    (∀ msg, onData s k (.join msg) now ft rid cid tid iid rp =
      handleJoin (rateTick s k) k msg rid now cid tid iid) ∧
    (∀ tok, onData s k (.inference tok) now ft rid cid tid iid rp =
      handleInferenceRequest (rateTick s k) k tok) ∧
    (onData s k .challenge now ft rid cid tid iid rp =
      handleChallenge (rateTick s k) k) ∧
    (∀ n, onData s k (.conectionSize n) now ft rid cid tid iid rp =
      handleProviderConnections (rateTick s k) k n) ∧
    (∀ d, onData s k (.sendMetrics d) now ft rid cid tid iid rp =
      handleMetrics (rateTick s k) k d) ∧
    (∀ mn, onData s k (.requestProvider mn) now ft rid cid tid iid rp =
      handleRequestProvider (rateTick s k) k rp ft now) ∧
    (onData s k .healthCheck now ft rid cid tid iid rp =
      handleHealthCheck (rateTick s k) k) ∧
    (∀ tok, onData s k (.verifySession tok) now ft rid cid tid iid rp =
      handleSessionValidation (rateTick s k) k tok now) ∧
    (∀ tok, (onData s k (.inference (some tok)) now ft rid cid tid
        iid rp).inferenceTokens = insertA s.inferenceTokens tok k) := by
  have hlt : ¬ MAX_MESSAGES_PER_MINUTE ≤ (lookupA s.msgRate k).getD 0 := by
    omega
  refine ⟨?_, ?_, ?_, ?_, ?_, ?_, ?_, ?_, ?_⟩
  · intro msg
    simp only [onData, rateTick, if_neg hlt]
  · intro tok
    simp only [onData, rateTick, if_neg hlt]
  · simp only [onData, rateTick, if_neg hlt]
  · intro n
    simp only [onData, rateTick, if_neg hlt]
  · intro d
    simp only [onData, rateTick, if_neg hlt]
  · intro mn
    simp only [onData, rateTick, if_neg hlt]
  · simp only [onData, rateTick, if_neg hlt]
  · intro tok
    simp only [onData, rateTick, if_neg hlt]
  · intro tok
    simp only [onData, if_neg hlt, handleInferenceRequest]
    cases getActiveSessionId s.providerSessions k <;> simp [logRequest]

/-- Witness for the amended C2: in the sample accepted state for the
never-joined peer `"aa"`, an `inference` frame records its token, and
`conectionSize`, `challenge` and `requestProvider` frames are each
dispatched to their handlers after the rate-limit tick. -/
theorem claim_C2_amended_witness :
    (onData sAccepted "aa" (.inference (some "tok2")) 0 "" [] 0 0 0
      (fun _ => none)).inferenceTokens = [("tok2", "aa")] ∧
    onData sAccepted "aa" (.conectionSize 3) 0 "" [] 0 0 0 (fun _ => none) =
      handleProviderConnections (rateTick sAccepted "aa") "aa" 3 ∧
    onData sAccepted "aa" .challenge 0 "" [] 0 0 0 (fun _ => none) =
      handleChallenge (rateTick sAccepted "aa") "aa" ∧
    onData sAccepted "aa" (.requestProvider "llama3") 0 "ft" [] 0 0 0
      (fun _ => none) =
      handleRequestProvider (rateTick sAccepted "aa") "aa" (fun _ => none)
        "ft" 0 := by
  have h := claim_C2_amended_join_blind_dispatch sAccepted "aa" 0 "" [] 0 0 0
    (fun _ => none) (by decide) (by decide)
  have hft := claim_C2_amended_join_blind_dispatch sAccepted "aa" 0 "ft" []
    0 0 0 (fun _ => none) (by decide) (by decide)
  refine ⟨?_, h.2.2.2.1 3, h.2.2.1, hft.2.2.2.2.2.1 "llama3"⟩
  rw [h.2.2.2.2.2.2.2.2 "tok2"]
  decide

/-- Counterexample to C4 as stated: peer `"aa"` connects (the dispatcher
opens a provider session on acceptance) and then sends `join` with
`symmetryCoreVersion = 0.9.0` below the minimum 1.2.0.  The hub replies
`versionMismatch` and writes no `peers` row — but a `provider_sessions`
row for this connection exists, so "no provider_sessions row is created
for this connection" fails. -/
theorem claim_C4_counterexample :
    (handleJoin sAccepted "aa" joinBadMsg [] 0 1 2 3).outbox =
      [("aa", .versionMismatch ⟨1, 2, 0⟩)] ∧
    (handleJoin sAccepted "aa" joinBadMsg [] 0 1 2 3).peers = [] ∧
    (handleJoin sAccepted "aa" joinBadMsg [] 0 1 2 3).providerSessions =
      [{ id := 1, peerKey := "aa", startTime := 0, endTime := none,
         durationMinutes := none, totalRequests := 0 }] ∧
    (handleJoin sAccepted "aa" joinBadMsg [] 0 1 2 3).providerSessions ≠
      [] := by decide

/-- C4 amended: on a `join` with missing or too-old
`symmetryCoreVersion` the hub replies `versionMismatch` carrying the
configured minimum and `handleJoin` performs no transition — no `peers`
row is upserted, the peer is not added to the connected map, no health
check is started, and `handleJoin` creates no provider session; the
provider-session row that exists for the connection was created by
connection acceptance (`listeners` calls `startSession` before any
frame), not by `join`. -/
theorem claim_C4_amended_version_mismatch (s : ServerState) (k : String)
    (msg : PeerUpsert) (rid : List Nat) (now : Int) (cid tid iid : Nat)
    (hbad : msg.symmetryCoreVersion = none ∨
      ∃ v, msg.symmetryCoreVersion = some v ∧
        versionLt v MIN_SUPPORTED_SYMMETRY_CORE_VERSION = true) :
    handleJoin s k msg rid now cid tid iid =
      writeMsg s k (.versionMismatch MIN_SUPPORTED_SYMMETRY_CORE_VERSION) ∧
    (handleJoin s k msg rid now cid tid iid).peers = s.peers ∧
    (handleJoin s k msg rid now cid tid iid).providerSessions =
      s.providerSessions ∧
    (handleJoin s k msg rid now cid tid iid).connectedPeers =
      s.connectedPeers ∧
    (handleJoin s k msg rid now cid tid iid).heartbeatIntervals =
      s.heartbeatIntervals ∧
    (handleJoin s k msg rid now cid tid iid).healthCheckTimeouts =
      s.healthCheckTimeouts ∧
    (handleJoin s k msg rid now cid tid iid).outbox =
      s.outbox ++
        [(k, .versionMismatch MIN_SUPPORTED_SYMMETRY_CORE_VERSION)] ∧
    (∀ s2 k2 now2 dt,
      (acceptConnection s2 k2 now2 dt).providerSessions =
        s2.providerSessions ++
          [{ id := s2.providerSessions.length + 1, peerKey := k2,
             startTime := now2, endTime := none, durationMinutes := none,
             totalRequests := 0 }]) := by
  have h : handleJoin s k msg rid now cid tid iid =
      writeMsg s k (.versionMismatch MIN_SUPPORTED_SYMMETRY_CORE_VERSION) := by
    rcases hbad with hv | ⟨v, hv, hlt⟩
    · simp [handleJoin, hv]
    · simp [handleJoin, hv, hlt]
  refine ⟨h, ?_, ?_, ?_, ?_, ?_, ?_, ?_⟩
  · rw [h]; rfl
  · rw [h]; rfl
  · rw [h]; rfl
  · rw [h]; rfl
  · rw [h]; rfl
  · rw [h]; rfl
  intro s2 k2 now2 dt
  simp [acceptConnection, startSessionRows]

/-- Witness for the amended C4: a `join` with a missing version in the
sample joined state only writes the `versionMismatch` frame. -/
theorem claim_C4_witness :
    handleJoin sJoined "zz" { joinBadMsg with symmetryCoreVersion := none }
        [] 0 1 2 3 =
      writeMsg sJoined "zz" (.versionMismatch ⟨1, 2, 0⟩) :=
  (claim_C4_amended_version_mismatch sJoined "zz"
    { joinBadMsg with symmetryCoreVersion := none } [] 0 1 2 3
    (Or.inl rfl)).1

theorem handleRequestProviderAux_unfold (s : ServerState) (k : String)
    (rp : Nat → Option PeerRow) (tok : String) (now : Int) (attempts : Nat) :
    handleRequestProviderAux s k rp tok now attempts =
      if MAX_RANDOM_PEER_REQUEST_ATTEMPTS < attempts then s
      else
        match rp attempts with
        | none => handleRequestProviderAux s k rp tok now (attempts + 1)
        | some providerPeer =>
          if providerPeer.maxConnections ≤ providerPeer.connections.getD 0
          then s
          else
            writeMsg
              { s with brokerSessions :=
                  createSessionStore s.brokerSessions tok providerPeer.discoveryKey now }
              k (.providerDetails providerPeer.key tok) := by
  conv_lhs => rw [handleRequestProviderAux]

theorem handleRequestProviderAux_all_none (s : ServerState) (k : String)
    (rp : Nat → Option PeerRow) (tok : String) (now : Int) :
    ∀ (n attempts : Nat),
      MAX_RANDOM_PEER_REQUEST_ATTEMPTS + 1 ≤ attempts + n →
      (∀ i, attempts ≤ i → i ≤ MAX_RANDOM_PEER_REQUEST_ATTEMPTS →
        rp i = none) →
      handleRequestProviderAux s k rp tok now attempts = s := by
  intro n
  induction n with
  | zero =>
    intro attempts hbound _
    rw [handleRequestProviderAux_unfold, if_pos (by omega)]
  | succ n ih =>
    intro attempts hbound hnone
    rw [handleRequestProviderAux_unfold]
    by_cases hlt : MAX_RANDOM_PEER_REQUEST_ATTEMPTS < attempts
    · rw [if_pos hlt]
    · rw [if_neg hlt]
      rw [hnone attempts le_rfl (by omega)]
      exact ih (attempts + 1) (by omega)
        (fun i h1 h2 => hnone i (by omega) h2)

theorem handleRequestProviderAux_congr (s : ServerState) (k : String)
    (rp rp2 : Nat → Option PeerRow) (tok : String) (now : Int) :
    ∀ (n attempts : Nat),
      MAX_RANDOM_PEER_REQUEST_ATTEMPTS + 1 ≤ attempts + n →
      (∀ i, attempts ≤ i → i ≤ MAX_RANDOM_PEER_REQUEST_ATTEMPTS →
        rp i = rp2 i) →
      handleRequestProviderAux s k rp tok now attempts =
        handleRequestProviderAux s k rp2 tok now attempts := by
  intro n
  induction n with
  | zero =>
    intro attempts hbound _
    have hlt : MAX_RANDOM_PEER_REQUEST_ATTEMPTS < attempts := by omega
    conv_lhs => rw [handleRequestProviderAux_unfold]
    conv_rhs => rw [handleRequestProviderAux_unfold]
    rw [if_pos hlt, if_pos hlt]
  | succ n ih =>
    intro attempts hbound hagree
    conv_lhs => rw [handleRequestProviderAux_unfold]
    conv_rhs => rw [handleRequestProviderAux_unfold]
    by_cases hlt : MAX_RANDOM_PEER_REQUEST_ATTEMPTS < attempts
    · rw [if_pos hlt, if_pos hlt]
    · rw [if_neg hlt, if_neg hlt, hagree attempts le_rfl (by omega)]
      cases h2 : rp2 attempts with
      | none =>
        simp only [h2]
        exact ih (attempts + 1) (by omega)
          (fun i h1 hh2 => hagree i (by omega) hh2)
      | some providerPeer => rfl

/-- C5: matchmaking.  `MAX_RANDOM_PEER_REQUEST_ATTEMPTS` is 5; if the
random lookup finds no provider on every attempt up to the bound, the
hub returns without replying; the outcome never depends on lookup
results beyond attempt 5; a saturated chosen provider
(`current_connections ≥ max_connections`) means return without replying
and without further lookups; otherwise a broker session bound to the
provider's discovery key is created and `providerDetails
= (providerId, sessionToken)` is written to the caller. -/
theorem claim_C5_matchmaking :
    MAX_RANDOM_PEER_REQUEST_ATTEMPTS = 5 ∧
    (∀ s k rp tok now,
      (∀ i, i ≤ MAX_RANDOM_PEER_REQUEST_ATTEMPTS → rp i = none) →
      handleRequestProvider s k rp tok now = s) ∧
    (∀ s k rp rp2 tok now,
      (∀ i, i ≤ MAX_RANDOM_PEER_REQUEST_ATTEMPTS → rp i = rp2 i) →
      handleRequestProvider s k rp tok now =
        handleRequestProvider s k rp2 tok now) ∧
    (∀ s k rp tok now p, rp 0 = some p →
      p.maxConnections ≤ p.connections.getD 0 →
      handleRequestProvider s k rp tok now = s) ∧
    (∀ s k rp tok now p, rp 0 = some p →
      p.connections.getD 0 < p.maxConnections →
      handleRequestProvider s k rp tok now =
        { s with
          brokerSessions := s.brokerSessions ++
            [(tok, ⟨p.discoveryKey, now, now + sessionDurationMs⟩)],
          outbox := s.outbox ++ [(k, .providerDetails p.key tok)] }) := by
  refine ⟨rfl, ?_, ?_, ?_, ?_⟩
  · intro s k rp tok now hnone
    exact handleRequestProviderAux_all_none s k rp tok now
      (MAX_RANDOM_PEER_REQUEST_ATTEMPTS + 1) 0 (by omega)
      (fun i _ h2 => hnone i h2)
  · intro s k rp rp2 tok now hagree
    exact handleRequestProviderAux_congr s k rp rp2 tok now
      (MAX_RANDOM_PEER_REQUEST_ATTEMPTS + 1) 0 (by omega)
      (fun i _ h2 => hagree i h2)
  · intro s k rp tok now p h0 hsat
    unfold handleRequestProvider
    rw [handleRequestProviderAux_unfold,
      if_neg (by decide : ¬ MAX_RANDOM_PEER_REQUEST_ATTEMPTS < 0)]
    simp only [h0]
    exact if_pos hsat
  · intro s k rp tok now p h0 hcap
    unfold handleRequestProvider
    rw [handleRequestProviderAux_unfold,
      if_neg (by decide : ¬ MAX_RANDOM_PEER_REQUEST_ATTEMPTS < 0)]
    simp only [h0]
    rw [if_neg (by omega)]
    rfl

/-- Witness for C5 at concrete inputs: the lookup returns the sample
provider with spare capacity on the first attempt, so the caller gets
`providerDetails` and a broker session bound to the provider's
discovery key. -/
theorem claim_C5_witness :
    (handleRequestProvider emptyState "cc" (fun _ => some pkRow) "tok"
      0).outbox = [("cc", .providerDetails "pk" "tok")] ∧
    lookupA (handleRequestProvider emptyState "cc" (fun _ => some pkRow)
      "tok" 0).brokerSessions "tok" = some ⟨"dk", 0, 600000⟩ := by
  have h := claim_C5_matchmaking.2.2.2.2 emptyState "cc"
    (fun _ => some pkRow) "tok" 0 pkRow rfl (by decide)
  rw [h]
  decide

theorem runVerifies_of_absent (tok : String) (taus : List Int)
    (st : List (String × BrokerSession)) (h : lookupA st tok = none) :
    runVerifies tok taus st = st := by
  induction taus with
  | nil => rfl
  | cons t ts ih =>
    simp only [runVerifies, verifySessionStore, h]
    exact ih

theorem verify_runVerifies_iff (tok : String) (taus : List Int)
    (st : List (String × BrokerSession)) (d : String) (c exp T : Int)
    (hlook : lookupA st tok = some ⟨d, c, exp⟩) :
    ((verifySessionStore (runVerifies tok taus st) tok T).1 = some d ↔
      (T ≤ exp ∧ ∀ τ ∈ taus, τ ≤ exp)) := by
  induction taus generalizing st with
  | nil =>
    simp only [runVerifies, verifySessionStore, hlook]
    by_cases hT : exp < T <;> simp [hT] <;> omega
  | cons τ ts ih =>
    simp only [runVerifies]
    by_cases hτ : exp < τ
    · have hst2 : (verifySessionStore st tok τ).2 = eraseA st tok := by
        simp [verifySessionStore, hlook, hτ]
      rw [hst2, runVerifies_of_absent tok ts _ (lookupA_eraseA_self st tok)]
      simp only [verifySessionStore, lookupA_eraseA_self st tok]
      constructor
      · intro hcontra; exact absurd hcontra (by simp)
      · rintro ⟨-, hall⟩
        exact absurd (hall τ (by simp)) (by omega)
    · have hst2 : (verifySessionStore st tok τ).2 = st := by
        simp [verifySessionStore, hlook, hτ]
      rw [hst2]
      rw [ih st hlook]
      constructor
      · rintro ⟨hT, hall⟩
        exact ⟨hT, fun x hx => by
          rcases List.mem_cons.1 hx with hx | hx
          · omega
          · exact hall x hx⟩
      · rintro ⟨hT, hall⟩
        exact ⟨hT, fun x hx => hall x (List.mem_cons_of_mem τ hx)⟩

/-- C6: session-token binding.  Over any history consisting of a
`createSession` for token `t` (into a store with no row for `t`)
followed by `verifySession` calls on `t`, a final `verify(t)` returns
the bound discovery key `d` iff the final call is within 10 minutes of
the create and no earlier verify came after the expiry (which would
have lazily deleted the row).  Moreover an expired-but-present row is
deleted by `verify` which returns none, an absent row returns none and
leaves the store untouched, and operations on other tokens never touch
`t`'s row. -/
theorem claim_C6_session_token_binding :
    (∀ st tok d t0 taus T, lookupA st tok = none →
      ((verifySessionStore (runVerifies tok taus
          (createSessionStore st tok d t0)) tok T).1 = some d ↔
        (T ≤ t0 + sessionDurationMs ∧
          ∀ τ ∈ taus, τ ≤ t0 + sessionDurationMs))) ∧
    (∀ st tok sess T, lookupA st tok = some sess → sess.expiresAt < T →
      verifySessionStore st tok T = (none, eraseA st tok)) ∧
    (∀ st tok T, lookupA st tok = none →
      verifySessionStore st tok T = (none, st)) ∧
    (∀ st tok tok2 d t, tok2 ≠ tok →
      lookupA (createSessionStore st tok2 d t) tok = lookupA st tok ∧
      lookupA (verifySessionStore st tok2 t).2 tok = lookupA st tok) := by
  refine ⟨?_, ?_, ?_, ?_⟩
  · intro st tok d t0 taus T h
    have hc : lookupA (createSessionStore st tok d t0) tok =
        some ⟨d, t0, t0 + sessionDurationMs⟩ := by
      unfold createSessionStore
      rw [lookupA_append_single_of_none st tok tok _ h, if_pos rfl]
    exact verify_runVerifies_iff tok taus _ d t0 (t0 + sessionDurationMs) T hc
  · intro st tok sess T h hexp
    simp [verifySessionStore, h, hexp]
  · intro st tok T h
    simp [verifySessionStore, h]
  · intro st tok tok2 d t hne
    constructor
    · unfold createSessionStore
      cases hl : lookupA st tok with
      | none =>
        rw [lookupA_append_single_of_none st tok tok2 _ hl, if_neg hne]
      | some w => exact lookupA_append_of_some st _ tok w hl
    · unfold verifySessionStore
      cases hl2 : lookupA st tok2 with
      | none => rfl
      | some sess =>
        by_cases hexp : sess.expiresAt < t
        · simp only [hl2, if_pos hexp]
          exact lookupA_eraseA_ne st tok2 tok hne
        · simp only [hl2, if_neg hexp]

/-- Witness for C6 at concrete inputs: create a session at time 0, one
intervening verify at minute 1, final verify at minute 5 — the bound
key is returned. -/
theorem claim_C6_witness :
    (verifySessionStore (runVerifies "t" [60000]
      (createSessionStore [] "t" "d" 0)) "t" 300000).1 = some "d" := by
  have h := claim_C6_session_token_binding.1 [] "t" "d" 0 [60000] 300000 rfl
  exact h.2 ⟨by decide, by decide⟩

theorem runHttpRequests_append (ip : String) (a b : List Int)
    (ipDb : List (String × IpMessageRow)) :
    runHttpRequests ip (a ++ b) ipDb =
      ((runHttpRequests ip a ipDb).1 ++
        (runHttpRequests ip b (runHttpRequests ip a ipDb).2).1,
       (runHttpRequests ip b (runHttpRequests ip a ipDb).2).2) := by
  induction a generalizing ipDb with
  | nil => simp [runHttpRequests]
  | cons t ts ih => simp [runHttpRequests, ih]

theorem runHttpRequests_pass (ip : String) (t0 : Int) :
    ∀ (times : List Int) (ipDb : List (String × IpMessageRow)) (c : Nat)
      (fs tl : Int),
      lookupA ipDb ip = some ⟨c, fs, tl⟩ →
      c + times.length ≤ MAX_HTTP_REQUESTS →
      t0 ≤ tl → tl ≤ t0 + TIME_WINDOW * 60 * 1000 →
      (∀ t ∈ times, t0 ≤ t ∧ t ≤ t0 + TIME_WINDOW * 60 * 1000) →
      (∀ st ∈ (runHttpRequests ip times ipDb).1, st ≠ .rateLimited) ∧
      ∃ tl2, lookupA (runHttpRequests ip times ipDb).2 ip =
          some ⟨c + times.length, fs, tl2⟩ ∧ t0 ≤ tl2 ∧
          tl2 ≤ t0 + TIME_WINDOW * 60 * 1000 := by
  intro times
  induction times with
  | nil =>
    intro ipDb c fs tl hlook hcnt h1 h2 _
    exact ⟨by simp [runHttpRequests], tl, by simpa [runHttpRequests] using hlook,
      h1, h2⟩
  | cons t ts ih =>
    intro ipDb c fs tl hlook hcnt h1 h2 htimes
    have ht := htimes t (by simp)
    have hmc : getMessageCount ipDb ip TIME_WINDOW t = some ⟨c, fs, tl⟩ := by
      simp only [getMessageCount, hlook]
      rw [if_pos (by omega)]
    have hr : handleChatCompletions ipDb [] [] ip t none 0 =
        (.noPeers, insertA ipDb ip ⟨c + 1, fs, t⟩, []) := by
      unfold handleChatCompletions
      simp only [hmc]
      rw [if_neg (by simp at hcnt ⊢; omega)]
      unfold chatCompletionsDispatch incrementMessageCount
      simp only [hlook]
    have hrec := ih (insertA ipDb ip ⟨c + 1, fs, t⟩) (c + 1) fs t
      (lookupA_insertA_self ipDb ip ⟨c + 1, fs, t⟩)
      (by simp at hcnt; omega) ht.1 ht.2
      (fun x hx => htimes x (List.mem_cons_of_mem t hx))
    obtain ⟨hpass, tl2, hlook2, hb1, hb2⟩ := hrec
    constructor
    · intro st hst
      simp only [runHttpRequests, hr] at hst
      rcases List.mem_cons.1 hst with h | h
      · subst h; simp
      · exact hpass st h
    · refine ⟨tl2, ?_, hb1, hb2⟩
      simp only [runHttpRequests, hr]
      have hcc : c + 1 + ts.length = c + (t :: ts).length := by
        simp; omega
      rw [← hcc]
      exact hlook2

/-- C7: HTTP rate limiting on `POST /v1/chat/completions`.
`MAX_HTTP_REQUESTS = 100` over a `TIME_WINDOW` of 60 minutes; the
handler compares the stored `message_count` against the cap before
incrementing (a request at the cap gets 429 with the table untouched);
and for a single client IP whose requests all fall in one 60-minute
window, the first 100 requests pass the rate-limit check while the
101st is answered 429. -/
theorem claim_C7_http_rate_limit :
    MAX_HTTP_REQUESTS = 100 ∧ TIME_WINDOW = 60 ∧
    (∀ ipDb replies connected ip now dbPeer rid row,
      getMessageCount ipDb ip TIME_WINDOW now = some row →
      MAX_HTTP_REQUESTS ≤ row.messageCount →
      handleChatCompletions ipDb replies connected ip now dbPeer rid =
        (.rateLimited, ipDb, replies)) ∧
    (∀ ip t0 (first100 : List Int) (t101 : Int),
      first100.length = 100 →
      (∀ t ∈ first100 ++ [t101],
        t0 ≤ t ∧ t ≤ t0 + TIME_WINDOW * 60 * 1000) →
      (∀ st ∈ (runHttpRequests ip first100 []).1, st ≠ .rateLimited) ∧
      (runHttpRequests ip (first100 ++ [t101]) []).1.getLast? =
        some .rateLimited) := by
  refine ⟨rfl, rfl, ?_, ?_⟩
  · intro ipDb replies connected ip now dbPeer rid row hmc hcap
    unfold handleChatCompletions
    simp only [hmc]
    rw [if_pos hcap]
  · intro ip t0 first100 t101 hlen hts
    cases first100 with
    | nil => simp at hlen
    | cons t1 rest =>
      have hrest : rest.length = 99 := by simpa using hlen
      have ht1 := hts t1 (by simp)
      have hr1 : handleChatCompletions [] [] [] ip t1 none 0 =
          (.noPeers, [(ip, ⟨1, t1, t1⟩)], []) := by
        unfold handleChatCompletions getMessageCount
        unfold chatCompletionsDispatch incrementMessageCount
        rfl
      have hinv := runHttpRequests_pass ip t0 rest [(ip, ⟨1, t1, t1⟩)] 1 t1 t1
        (by simp [lookupA]) (by rw [hrest]; decide) ht1.1 ht1.2
        (fun x hx => hts x (by simp [hx]))
      obtain ⟨hpass, tl2, hlook2, hb1, hb2⟩ := hinv
      have hfirst :
          runHttpRequests ip (t1 :: rest) [] =
            (HttpStatus.noPeers :: (runHttpRequests ip rest
              [(ip, ⟨1, t1, t1⟩)]).1,
             (runHttpRequests ip rest [(ip, ⟨1, t1, t1⟩)]).2) := by
        simp only [runHttpRequests, hr1]
      constructor
      · intro st hst
        rw [hfirst] at hst
        rcases List.mem_cons.1 hst with h | h
        · subst h; simp
        · exact hpass st h
      · have ht101 := hts t101 (by simp)
        have hrow : (1 : Nat) + rest.length = 100 := by omega
        have hmc2 : getMessageCount (runHttpRequests ip rest
            [(ip, ⟨1, t1, t1⟩)]).2 ip TIME_WINDOW t101 =
            some ⟨100, t1, tl2⟩ := by
          rw [hrow] at hlook2
          simp only [getMessageCount, hlook2]
          rw [if_pos (by omega)]
        have hlast : handleChatCompletions (runHttpRequests ip rest
            [(ip, ⟨1, t1, t1⟩)]).2 [] [] ip t101 none 0 =
            (.rateLimited, (runHttpRequests ip rest [(ip, ⟨1, t1, t1⟩)]).2,
              []) := by
          unfold handleChatCompletions
          simp only [hmc2]
          rw [if_pos (by decide)]
        rw [runHttpRequests_append, hfirst]
        simp only [runHttpRequests, hlast]
        rw [List.getLast?_append_cons]
        rfl

/-- Witness for C7 at concrete inputs: 101 requests from one IP, all at
time 0 — all of the first hundred pass and the 101st is rejected 429. -/
theorem claim_C7_witness :
    (∀ st ∈ (runHttpRequests "1.2.3.4" (List.replicate 100 0) []).1,
      st ≠ .rateLimited) ∧
    (runHttpRequests "1.2.3.4" (List.replicate 100 0 ++ [0]) []).1.getLast? =
      some .rateLimited := by
  have h := claim_C7_http_rate_limit.2.2.2 "1.2.3.4" 0
    (List.replicate 100 0) 0 (by simp)
    (by
      intro t ht
      simp at ht
      subst ht
      exact ⟨le_rfl, by decide⟩)
  exact h

theorem chatCompletionsDispatch_ne_rateLimited
    (ipDb : List (String × IpMessageRow)) (replies connected :
    List (String × Nat)) (ip : String) (now : Int) (dbPeer : Option PeerRow)
    (rid : Nat) :
    (chatCompletionsDispatch ipDb replies connected ip now dbPeer rid).1 ≠
      .rateLimited := by
  cases dbPeer with
  | none => simp [chatCompletionsDispatch]
  | some p =>
    cases h : lookupA connected p.key with
    | none => simp [chatCompletionsDispatch, h]
    | some c => simp [chatCompletionsDispatch, h]

theorem handleChatCompletions_none (ipDb : List (String × IpMessageRow))
    (replies connected : List (String × Nat)) (ip : String) (now : Int)
    (dbPeer : Option PeerRow) (rid : Nat)
    (hmc : getMessageCount ipDb ip TIME_WINDOW now = none) :
    handleChatCompletions ipDb replies connected ip now dbPeer rid =
      chatCompletionsDispatch ipDb replies connected ip now dbPeer rid := by
  unfold handleChatCompletions
  simp only [hmc]

theorem handleChatCompletions_cap (ipDb : List (String × IpMessageRow))
    (replies connected : List (String × Nat)) (ip : String) (now : Int)
    (dbPeer : Option PeerRow) (rid : Nat) (row : IpMessageRow)
    (hmc : getMessageCount ipDb ip TIME_WINDOW now = some row)
    (hcap : MAX_HTTP_REQUESTS ≤ row.messageCount) :
    handleChatCompletions ipDb replies connected ip now dbPeer rid =
      (.rateLimited, ipDb, replies) := by
  unfold handleChatCompletions
  simp only [hmc]
  rw [if_pos hcap]

theorem handleChatCompletions_nocap (ipDb : List (String × IpMessageRow))
    (replies connected : List (String × Nat)) (ip : String) (now : Int)
    (dbPeer : Option PeerRow) (rid : Nat) (row : IpMessageRow)
    (hmc : getMessageCount ipDb ip TIME_WINDOW now = some row)
    (hcap : ¬ MAX_HTTP_REQUESTS ≤ row.messageCount) :
    handleChatCompletions ipDb replies connected ip now dbPeer rid =
      chatCompletionsDispatch ipDb replies connected ip now dbPeer rid := by
  unfold handleChatCompletions
  simp only [hmc]
  rw [if_neg hcap]

/-- Counterexample to C8 as stated: with responder 1 still registered
for provider key `"pk"` (it has not terminated), a second HTTP request
routed to the same provider is not refused — the handler registers
responder 2, replacing responder 1 in the map. -/
theorem claim_C8_counterexample :
    lookupA [("pk", 1)] "pk" = some 1 ∧
    (handleChatCompletions [] [("pk", 1)] [("pk", 0)] "ip" 0 (some pkRow)
      2).2.2 = [("pk", 2)] ∧
    lookupA (handleChatCompletions [] [("pk", 1)] [("pk", 0)] "ip" 0
      (some pkRow) 2).2.2 "pk" = some 2 := by decide

/-- C8 amended: at most one pending HTTP responder is registered per
provider peer key at any instant — the responder table is a map whose
keys stay unique under registration (`Map.set`) and removal — but the
matchmaker does not refuse a second registration while one is pending:
a second request routed to the same provider key overwrites the
registered responder. -/
theorem claim_C8_amended_responder_uniqueness :
    (∀ (m : List (String × Nat)) k, NodupKeys m → keyCount m k ≤ 1) ∧
    NodupKeys ([] : List (String × Nat)) ∧
    (∀ (m : List (String × Nat)) k v, NodupKeys m →
      NodupKeys (insertA m k v)) ∧
    (∀ (m : List (String × Nat)) k, NodupKeys m →
      NodupKeys (onHttpRequestClose m k)) ∧
    (∀ ipDb replies connected ip now (p : PeerRow) rid rid0 c,
      getMessageCount ipDb ip TIME_WINDOW now = none →
      lookupA replies p.key = some rid0 →
      lookupA connected p.key = some c →
      (handleChatCompletions ipDb replies connected ip now (some p)
        rid).1 = .streaming p.key ∧
      lookupA (handleChatCompletions ipDb replies connected ip now (some p)
        rid).2.2 p.key = some rid) := by
  refine ⟨keyCount_le_one_of_nodup, by simp [NodupKeys], nodupKeys_insertA,
    ?_, ?_⟩
  · intro m k h
    exact nodupKeys_eraseA m k h
  · intro ipDb replies connected ip now p rid rid0 c hmc hreg hconn
    rw [handleChatCompletions_none ipDb replies connected ip now (some p)
      rid hmc]
    refine ⟨?_, ?_⟩
    · simp [chatCompletionsDispatch, hconn]
    · simp [chatCompletionsDispatch, hconn, lookupA_insertA_self]

/-- Witness for the amended C8 at concrete inputs: with responder 1
pending for `"pk"`, a second dispatch registers responder 7. -/
theorem claim_C8_witness :
    (handleChatCompletions [] [("pk", 1)] [("pk", 0)] "ip2" 5 (some pkRow)
      7).1 = .streaming "pk" ∧
    lookupA (handleChatCompletions [] [("pk", 1)] [("pk", 0)] "ip2" 5
      (some pkRow) 7).2.2 "pk" = some 7 := by
  exact claim_C8_amended_responder_uniqueness.2.2.2.2 [] [("pk", 1)]
    [("pk", 0)] "ip2" 5 pkRow 7 1 0 rfl (by decide) (by decide)

/-- C9: a `POST /v1/chat/completions` request rejected with 429 leaves
the rate-limit state for that IP unchanged — the 429 branch returns
before `incrementMessageCount` runs, so the `ip_messages` table (hence
`message_count`, `first_seen`, `last_seen`) and the responder map are
exactly as before, and a 429 can only arise from a stored row already
at the cap. -/
theorem claim_C9_429_leaves_state (ipDb : List (String × IpMessageRow))
    (replies connected : List (String × Nat)) (ip : String) (now : Int)
    (dbPeer : Option PeerRow) (rid : Nat)
    (h429 : (handleChatCompletions ipDb replies connected ip now dbPeer
      rid).1 = .rateLimited) :
    (handleChatCompletions ipDb replies connected ip now dbPeer rid).2.1 =
      ipDb ∧
    (handleChatCompletions ipDb replies connected ip now dbPeer rid).2.2 =
      replies ∧
    ∃ row, getMessageCount ipDb ip TIME_WINDOW now = some row ∧
      MAX_HTTP_REQUESTS ≤ row.messageCount := by
  cases hmc : getMessageCount ipDb ip TIME_WINDOW now with
  | none =>
    rw [handleChatCompletions_none ipDb replies connected ip now dbPeer rid
      hmc] at h429
    exact absurd h429
      (chatCompletionsDispatch_ne_rateLimited ipDb replies connected ip now
        dbPeer rid)
  | some row =>
    by_cases hcap : MAX_HTTP_REQUESTS ≤ row.messageCount
    · rw [handleChatCompletions_cap ipDb replies connected ip now dbPeer rid
        row hmc hcap]
      exact ⟨rfl, rfl, row, rfl, hcap⟩
    · rw [handleChatCompletions_nocap ipDb replies connected ip now dbPeer
        rid row hmc hcap] at h429
      exact absurd h429
        (chatCompletionsDispatch_ne_rateLimited ipDb replies connected ip
          now dbPeer rid)

/-- Witness for C9 at concrete inputs: an IP already at 100 messages is
rejected and its row (and the responder map) stays exactly the same. -/
theorem claim_C9_witness :
    (handleChatCompletions [("ip", ⟨100, 0, 0⟩)] [("pk", 1)] [] "ip" 0
      none 0).2.1 = [("ip", ⟨100, 0, 0⟩)] ∧
    (handleChatCompletions [("ip", ⟨100, 0, 0⟩)] [("pk", 1)] [] "ip" 0
      none 0).2.2 = [("pk", 1)] := by
  have h := claim_C9_429_leaves_state [("ip", ⟨100, 0, 0⟩)] [("pk", 1)] []
    "ip" 0 none 0 (by decide)
  exact ⟨h.1, h.2.1⟩

/-- C10: `extendSession` performs no expiry check — for a token whose
row still exists but is already expired (not yet lazily deleted by a
verify), `extendSession` returns `true` and pushes `expires_at` to
`now + 10 min`, after which `verifySession` succeeds again: an
expired-but-present token is revived. -/
theorem claim_C10_extend_revives_expired
    (st : List (String × BrokerSession)) (tok : String)
    (sess : BrokerSession) (now now2 : Int)
    (hlook : lookupA st tok = some sess)
    (_hexp : sess.expiresAt < now) :
    (extendSessionStore st tok now).1 = true ∧
    lookupA (extendSessionStore st tok now).2 tok =
      some ⟨sess.providerId, sess.createdAt, now + sessionDurationMs⟩ ∧
    (now2 ≤ now + sessionDurationMs →
      (verifySessionStore (extendSessionStore st tok now).2 tok now2).1 =
        some sess.providerId) := by
  have h2 : lookupA (extendSessionStore st tok now).2 tok =
      some ⟨sess.providerId, sess.createdAt, now + sessionDurationMs⟩ := by
    simp only [extendSessionStore, hlook]
    exact lookupA_insertA_self st tok _
  refine ⟨by simp [extendSessionStore, hlook], h2, ?_⟩
  intro hle
  simp only [verifySessionStore, h2]
  rw [if_neg (by simp; omega)]

/-- Witness for C10 at concrete inputs: a token that expired at minute
10 is extended at a much later time and then verifies again. -/
theorem claim_C10_witness :
    (extendSessionStore [("t", ⟨"d", 0, 600000⟩)] "t" 2000000).1 = true ∧
    (verifySessionStore (extendSessionStore [("t", ⟨"d", 0, 600000⟩)] "t"
      2000000).2 "t" 2500000).1 = some "d" := by
  have h := claim_C10_extend_revives_expired [("t", ⟨"d", 0, 600000⟩)] "t"
    ⟨"d", 0, 600000⟩ 2000000 2500000 (by decide) (by decide)
  exact ⟨h.1, h.2.2 (by decide)⟩

end SymmetryServer
